import Mathlib

/-!
Shallow embedding of the autonomous task-orchestration control loop of
`src/next/src/services/agent/autonomous-agent.ts`, together with theorems
settling the frozen claims about its specification.

The agent's mutable fields become an explicit `AgentState` record; the
external collaborators (ReasoningClient responses, the message store) become
an `Env` oracle record and a task list carried in the state.  Counters
(`shutdownCalls`, `decomposeCalls`, `handlePauseCalls`) instrument the
externally supplied callbacks and the goal-decomposition call so that their
invocations are observable in the model.
-/

namespace AgentGPT

/-- Task lifecycle status, from the `status` field of task messages. -/
inductive Status
  | started
  | executing
  | completed
  | final
deriving DecidableEq, Repr

/-- A task record: `{taskId, value, status, info}` as carried by task messages. -/
structure Task where
  taskId : Nat
  value : String
  status : Status
  info : Option String
deriving DecidableEq, Repr

/-- The typed messages emitted to the EventSink (rendered via `renderMessage`).
Modelled from the spec: the MessageService source is not under `src/`; its
send functions each emit one message of the corresponding kind. -/
inductive Msg
  | goal (g : String)
  | thinking
  | task (taskId : Nat) (value : String) (status : Status) (info : Option String)
  | analysis (a : String)
  | error (m : String)
  | completedAll
  | loopLimit
  | manualShutdown
deriving DecidableEq, Repr

/-- Agent mode: `AUTOMATIC_MODE` or `PAUSE_MODE`. -/
inductive Mode
  | automatic
  | pause
deriving DecidableEq, Repr

/-- Playback control flag: `AGENT_PLAY` or `AGENT_PAUSE`. -/
inductive Playback
  | play
  | pause
deriving DecidableEq, Repr

/-- The mutable fields of `AutonomousAgent`, plus the task store and the
emitted-message log, plus instrumentation counters for the external
callbacks (`shutdown`, `handlePause`) and for goal-decomposition calls. -/
structure AgentState where
  isRunning : Bool
  numLoops : Nat
  completedTasks : List String
  playbackControl : Playback
  tasks : List Task
  messages : List Msg
  nextId : Nat
  shutdownCalls : Nat
  decomposeCalls : Nat
  handlePauseCalls : Nat
deriving DecidableEq, Repr

/-- The shape of a failure inspected by `getMessageFromError`:
whether `axios.isAxiosError(e)` holds and `e.response?.status`. -/
structure ApiError where
  isAxiosError : Bool
  status : Option Nat
deriving DecidableEq, Repr

/-- Environment oracle: the agent's configuration and the responses of the
external ReasoningClient (`AgentApi`).  `followUps n` is the response of
`getAdditionalTasks` during the iteration whose (incremented) loop count is
`n`; `none` models a thrown failure reaching the `catch` in `loop()`. -/
structure Env where
  goal : String
  mode : Mode
  customMaxLoops : Option Nat
  initialTasks : Except ApiError (List String)
  analyze : String → String
  execute : String → String → String
  followUps : Nat → Option (List String)

/-- Modelled from the spec: `translate(key, ns)` resolves a localization key;
localization is display-only, so the key itself stands for the message. -/
def translate (m : String) (_ns : String) : String := m

/-- `getMessageFromError` from the source, statement by statement.  The first
inner `if` has no `else`, so its assignment of the quota message is dead:
the following `if/else` overwrites `message` whenever the status is not 404. -/
def getMessageFromError (e : ApiError) : String :=
  if e.isAxiosError then
    let _message :=
      if e.status = some 429 then "ERROR_API_KEY_QUOTA" else "ERROR_RETRIEVE_INITIAL_TASKS"
    if e.status = some 404 then translate "ERROR_OPENAI_API_KEY_NO_GPT4" "errors"
    else translate "ERROR_ACCESSING_OPENAI_API_KEY" "errors"
  else translate "ERROR_RETRIEVE_INITIAL_TASKS" "errors"

/-- Modelled from the spec: the fixed free-tier loop-budget constant
`DEFAULT_MAX_LOOPS_FREE` (its file is not under `src/`). -/
def DEFAULT_MAX_LOOPS_FREE : Nat := 4

/-- `maxLoops()`: `this.modelSettings.customMaxLoops || DEFAULT_MAX_LOOPS_FREE`;
`0` and `undefined` are falsy. -/
def maxLoops (env : Env) : Nat :=
  match env.customMaxLoops with
  | some n => if n ≠ 0 then n else DEFAULT_MAX_LOOPS_FREE
  | none => DEFAULT_MAX_LOOPS_FREE

/-- Emit a non-task message to the EventSink log. -/
def emit (s : AgentState) (m : Msg) : AgentState :=
  { s with messages := s.messages ++ [m] }

/-- Modelled from the spec: effect of a task message on the task store
(the store source is not under `src/`; per §4.2 a `started` message appends a
new task, any other status updates the task with that id). -/
def applyTaskMessage (ts : List Task) (t : Task) : List Task :=
  if t.status = Status.started then ts ++ [t]
  else ts.map fun u => if u.taskId = t.taskId then { u with status := t.status, info := t.info } else u

/-- `messageService.sendMessage` for a task message: renders it (appends to
the log) and updates the task store. -/
def sendTaskMessage (s : AgentState) (t : Task) : AgentState :=
  { s with
      messages := s.messages ++ [Msg.task t.taskId t.value t.status t.info]
      tasks := applyTaskMessage s.tasks t }

/-- The externally supplied `shutdown` callback; instrumented as a counter. -/
def shutdown (s : AgentState) : AgentState :=
  { s with shutdownCalls := s.shutdownCalls + 1 }

/-- `updateIsRunning` (the MessageService mirror of the flag is display-only). -/
def updateIsRunning (s : AgentState) (b : Bool) : AgentState :=
  { s with isRunning := b }

/-- `getRemainingTasks()`: tasks of the store with status `started`, in order. -/
def getRemainingTasks (s : AgentState) : List Task :=
  s.tasks.filter fun t => t.status == Status.started

/-- `conditionalPause()`: in pause mode, set `isRunning` from the playback
flag, then reset a `Play` flag back to `Pause`. -/
def conditionalPause (mode : Mode) (s : AgentState) : AgentState :=
  if mode ≠ Mode.pause then s
  else
    let s1 := { s with isRunning := !(s.playbackControl = Playback.pause) }
    if s1.playbackControl = Playback.play then { s1 with playbackControl := Playback.pause }
    else s1

/-- The `for (const value of newTasks)` enqueue loop: each value becomes a
fresh `started` task (fresh ids model `v1()`) and is sent as a task message. -/
def enqueueValues : AgentState → List String → AgentState
  | s, [] => s
  | s, v :: vs =>
      let t : Task := { taskId := s.nextId, value := v, status := Status.started, info := none }
      enqueueValues { sendTaskMessage s t with nextId := s.nextId + 1 } vs

/-- `startGoal()`: goal and thinking messages, then `getInitialTasks`
(counted by `decomposeCalls`); on success enqueue each value, on failure
emit one error message and invoke `shutdown`. -/
def startGoal (env : Env) (s : AgentState) : AgentState :=
  let s1 := emit (emit s (Msg.goal env.goal)) Msg.thinking
  let s2 := { s1 with decomposeCalls := s1.decomposeCalls + 1 }
  match env.initialTasks with
  | Except.ok values => enqueueValues s2 values
  | Except.error e => shutdown (emit s2 (Msg.error (getMessageFromError e)))

/-- The body of one `loop()` iteration after `conditionalPause`, from the
executing message through the follow-up handling (lines 126-176 of the
source).  `value || ""` on the completed-task push coincides with the value
itself for strings.  A `followUps` failure is absorbed by the `catch`:
one error message plus a final task message. -/
def taskCycle (env : Env) (s : AgentState) (currentTask : Task) : AgentState :=
  let s1 := sendTaskMessage s { currentTask with status := Status.executing }
  let s2 := emit s1 Msg.thinking
  let analysis := env.analyze currentTask.value
  let s3 := emit s2 (Msg.analysis analysis)
  let result := env.execute currentTask.value analysis
  let s4 := sendTaskMessage s3 { currentTask with status := Status.completed, info := some result }
  let s5 := { s4 with completedTasks := s4.completedTasks ++ [currentTask.value] }
  let s6 := emit s5 Msg.thinking
  match env.followUps s6.numLoops with
  | some newTasks =>
      let s7 := enqueueValues s6 newTasks
      if newTasks.length = 0 then sendTaskMessage s7 { currentTask with status := Status.final }
      else s7
  | none =>
      let s7 := emit s6 (Msg.error (translate "ERROR_ADDING_ADDITIONAL_TASKS" "errors"))
      sendTaskMessage s7 { currentTask with status := Status.final }

/-- Result of one `loop()` pass: either a `return` (stopped) or a tail
recursive `await this.loop()` (next). -/
inductive IterResult
  | stopped (s : AgentState)
  | next (s : AgentState)
deriving DecidableEq, Repr

/-- One pass of `loop()` up to its trailing recursive call: the pause gate,
the empty-queue check, the loop-budget check, then the task cycle. -/
def loopIter (env : Env) (s0 : AgentState) : IterResult :=
  let s := conditionalPause env.mode s0
  if s.isRunning = false then IterResult.stopped s
  else if (getRemainingTasks s).length = 0 then
    IterResult.stopped (shutdown (emit s Msg.completedAll))
  else
    let s1 := { s with numLoops := s.numLoops + 1 }
    if s1.numLoops > maxLoops env then
      IterResult.stopped (shutdown (emit s1 Msg.loopLimit))
    else
      match getRemainingTasks s1 with
      | [] => IterResult.stopped s1
      | currentTask :: _ => IterResult.next (taskCycle env s1 currentTask)

/-- The self-recursive `loop()`, with fuel bounding the recursion depth
(adequate fuel exists for every run since the budget check terminates it). -/
def loopRun : Nat → Env → AgentState → AgentState
  | 0, _, s => s
  | Nat.succ fuel, env, s =>
      match loopIter env s with
      | IterResult.stopped s1 => s1
      | IterResult.next s1 => loopRun fuel env s1

/-- Number of nested `loop()` invocations performed by a run: each pass
contributes one frame, a pass that recurses adds the frames of the recursive
call on top of its own. -/
def loopDepth : Nat → Env → AgentState → Nat
  | 0, _, _ => 0
  | Nat.succ fuel, env, s =>
      match loopIter env s with
      | IterResult.stopped _ => 1
      | IterResult.next s1 => 1 + loopDepth fuel env s1

/-- `run()`: start phase guarded only by `isRunning`, then the loop, then the
`handlePause` callback when a step-paused run is no longer running. -/
def run (fuel : Nat) (env : Env) (s0 : AgentState) : AgentState :=
  let s1 := if s0.isRunning = false then startGoal env (updateIsRunning s0 true) else s0
  let s2 := loopRun fuel env s1
  if env.mode = Mode.pause ∧ s2.isRunning = false then
    { s2 with handlePauseCalls := s2.handlePauseCalls + 1 }
  else s2

/-- `stopAgent()`: manual-shutdown message, `isRunning := false`, `shutdown()`. -/
def stopAgent (s : AgentState) : AgentState :=
  shutdown (updateIsRunning (emit s Msg.manualShutdown) false)

/-- Constructor initialization of the playback flag at the enum level:
the supplied constants are truthy strings, so any supplied value makes the
ternary condition true. -/
def initialPlayback (playbackCtl : Option Playback) (mode : Mode) : Playback :=
  match playbackCtl with
  | some _ => Playback.pause
  | none => if mode = Mode.pause then Playback.pause else Playback.play

/-- The constructor's initial state (fresh agent). -/
def mkAgent (playbackCtl : Option Playback) (mode : Mode) : AgentState :=
  { isRunning := false
    numLoops := 0
    completedTasks := []
    playbackControl := initialPlayback playbackCtl mode
    tasks := []
    messages := []
    nextId := 0
    shutdownCalls := 0
    decomposeCalls := 0
    handlePauseCalls := 0 }

/-! String-level model of the constructor's playback initialization, keeping
JavaScript truthiness explicit.  Modelled from the spec: the constant values
live in a types file not under `src/`; they are nonempty string literals. -/

/-- Modelled from the spec: mode constant (nonempty string). -/
def AUTOMATIC_MODE : String := "Automatic Mode"

/-- Modelled from the spec: mode constant (nonempty string). -/
def PAUSE_MODE : String := "Pause Mode"

/-- Modelled from the spec: playback constant (nonempty string). -/
def AGENT_PLAY : String := "Play"

/-- Modelled from the spec: playback constant (nonempty string). -/
def AGENT_PAUSE : String := "Pause"

/-- JavaScript truthiness of a string: every nonempty string is truthy. -/
def jsTruthy (s : String) : Bool := !(s = "")

/-- `this.mode = mode || AUTOMATIC_MODE`. -/
def ctorMode (mode : String) : String :=
  if jsTruthy mode then mode else AUTOMATIC_MODE

/-- `this.playbackControl = playbackControl || this.mode == PAUSE_MODE ?
AGENT_PAUSE : AGENT_PLAY`: because `||` binds tighter than `?:`, the whole
disjunction `playbackControl || (this.mode == PAUSE_MODE)` is the ternary
condition. -/
def ctorPlaybackControl (playbackCtl : Option String) (mode : String) : String :=
  let m := ctorMode mode
  let cond : Bool :=
    match playbackCtl with
    | some p => if jsTruthy p then true else m == PAUSE_MODE
    | none => m == PAUSE_MODE
  if cond then AGENT_PAUSE else AGENT_PLAY

/-! Concrete environments and states used by witnesses and counterexamples. -/

/-- Environment whose goal decomposition fails with a plain (non-axios) error,
in automatic mode. -/
def failEnvAuto : Env :=
  { goal := "g"
    mode := Mode.automatic
    customMaxLoops := none
    initialTasks := Except.error { isAxiosError := false, status := none }
    analyze := fun _ => "analysis"
    execute := fun _ _ => "result"
    followUps := fun _ => some [] }

/-- Same failing decomposition, step-paused mode. -/
def failEnvPause : Env :=
  { failEnvAuto with mode := Mode.pause }

/-- Environment that decomposes the goal into one task and always returns
zero follow-ups, automatic mode. -/
def envNoFollow : Env :=
  { goal := "g"
    mode := Mode.automatic
    customMaxLoops := some 4
    initialTasks := Except.ok ["a"]
    analyze := fun _ => "analysis"
    execute := fun _ _ => "result"
    followUps := fun _ => some [] }

/-- Step-paused variant of `envNoFollow`. -/
def envPause : Env :=
  { envNoFollow with mode := Mode.pause }

/-- Environment with loop budget `m` whose follow-up oracle always returns
one fresh task, so the remaining queue never empties. -/
def envBusy (m : Nat) : Env :=
  { goal := "g"
    mode := Mode.automatic
    customMaxLoops := some m
    initialTasks := Except.ok ["a"]
    analyze := fun _ => "analysis"
    execute := fun _ _ => "result"
    followUps := fun _ => some ["b"] }

/-- A mid-run state: one enqueued task, agent running, flag `play`. -/
def sampleState : AgentState :=
  { isRunning := true
    numLoops := 0
    completedTasks := []
    playbackControl := Playback.play
    tasks := [{ taskId := 0, value := "a", status := Status.started, info := none }]
    messages := []
    nextId := 1
    shutdownCalls := 0
    decomposeCalls := 1
    handlePauseCalls := 0 }

/-- `sampleState` with the playback flag at `pause`. -/
def samplePaused : AgentState :=
  { sampleState with playbackControl := Playback.pause }

/-- The task messages produced by enqueueing `vs` starting at id `n`. -/
def startedMsgs : Nat → List String → List Msg
  | _, [] => []
  | n, v :: vs => Msg.task n v Status.started none :: startedMsgs (n + 1) vs

/-- The tasks appended to the store by enqueueing `vs` starting at id `n`. -/
def startedTasksFrom : Nat → List String → List Task
  | _, [] => []
  | n, v :: vs =>
      { taskId := n, value := v, status := Status.started, info := none } :: startedTasksFrom (n + 1) vs

theorem conditionalPause_auto (s : AgentState) : conditionalPause Mode.automatic s = s := by
  simp [conditionalPause]

theorem conditionalPause_flagPause (s : AgentState) (h : s.playbackControl = Playback.pause) :
    conditionalPause Mode.pause s = { s with isRunning := false } := by
  simp [conditionalPause, h]

theorem conditionalPause_flagPlay (s : AgentState) (h : s.playbackControl = Playback.play) :
    conditionalPause Mode.pause s =
      { s with isRunning := true, playbackControl := Playback.pause } := by
  simp [conditionalPause, h]

theorem conditionalPause_shape (m : Mode) (s : AgentState) :
    ∃ b p, conditionalPause m s = { s with isRunning := b, playbackControl := p } := by
  cases m with
  | automatic => exact ⟨s.isRunning, s.playbackControl, by simp [conditionalPause_auto]⟩
  | pause =>
      cases h : s.playbackControl with
      | play => exact ⟨true, Playback.pause, conditionalPause_flagPlay s h⟩
      | pause => exact ⟨false, s.playbackControl, by rw [conditionalPause_flagPause s h]⟩

theorem enqueueValues_eq (vs : List String) (s : AgentState) :
    enqueueValues s vs =
      { s with
          messages := s.messages ++ startedMsgs s.nextId vs
          tasks := s.tasks ++ startedTasksFrom s.nextId vs
          nextId := s.nextId + vs.length } := by
  induction vs generalizing s with
  | nil => simp [enqueueValues, startedMsgs, startedTasksFrom]
  | cons v vs ih =>
      rw [enqueueValues, ih]
      simp [sendTaskMessage, applyTaskMessage, startedMsgs, startedTasksFrom]
      omega

theorem taskCycle_eq (env : Env) (s : AgentState) (t : Task) :
    taskCycle env s t =
      (let a := env.analyze t.value
      let r := env.execute t.value a
      let ts2 := applyTaskMessage
        (applyTaskMessage s.tasks { t with status := Status.executing })
        { t with status := Status.completed, info := some r }
      let ms2 := s.messages ++
        [Msg.task t.taskId t.value Status.executing t.info, Msg.thinking, Msg.analysis a,
         Msg.task t.taskId t.value Status.completed (some r), Msg.thinking]
      match env.followUps s.numLoops with
      | some vs =>
          if vs.length = 0 then
            { s with
                messages := ms2 ++ [Msg.task t.taskId t.value Status.final t.info]
                tasks := applyTaskMessage ts2 { t with status := Status.final }
                completedTasks := s.completedTasks ++ [t.value] }
          else
            { s with
                messages := ms2 ++ startedMsgs s.nextId vs
                tasks := ts2 ++ startedTasksFrom s.nextId vs
                completedTasks := s.completedTasks ++ [t.value]
                nextId := s.nextId + vs.length }
      | none =>
          { s with
              messages := ms2 ++
                [Msg.error (translate "ERROR_ADDING_ADDITIONAL_TASKS" "errors"),
                 Msg.task t.taskId t.value Status.final t.info]
              tasks := applyTaskMessage ts2 { t with status := Status.final }
              completedTasks := s.completedTasks ++ [t.value] }) := by
  unfold taskCycle
  cases h : env.followUps s.numLoops with
  | some vs =>
      cases vs with
      | nil => simp [h, emit, sendTaskMessage, enqueueValues_eq, startedMsgs, startedTasksFrom]
      | cons v vs =>
          simp [h, emit, sendTaskMessage, enqueueValues_eq, startedMsgs, startedTasksFrom]
  | none => simp [h, emit, sendTaskMessage]

theorem taskCycle_fields (env : Env) (s : AgentState) (t : Task) :
    (taskCycle env s t).isRunning = s.isRunning ∧
    (taskCycle env s t).numLoops = s.numLoops ∧
    (taskCycle env s t).playbackControl = s.playbackControl ∧
    (taskCycle env s t).shutdownCalls = s.shutdownCalls ∧
    (taskCycle env s t).decomposeCalls = s.decomposeCalls ∧
    (taskCycle env s t).handlePauseCalls = s.handlePauseCalls := by
  rw [taskCycle_eq]
  cases h : env.followUps s.numLoops with
  | some vs => by_cases hl : vs.length = 0 <;> simp [hl]
  | none => simp

theorem taskCycle_messages (env : Env) (s : AgentState) (t : Task) :
    (taskCycle env s t).messages =
      s.messages ++
        [Msg.task t.taskId t.value Status.executing t.info, Msg.thinking,
         Msg.analysis (env.analyze t.value),
         Msg.task t.taskId t.value Status.completed
           (some (env.execute t.value (env.analyze t.value))), Msg.thinking] ++
        (match env.followUps s.numLoops with
         | some vs =>
             startedMsgs s.nextId vs ++
               (if vs.length = 0 then [Msg.task t.taskId t.value Status.final t.info] else [])
         | none =>
             [Msg.error (translate "ERROR_ADDING_ADDITIONAL_TASKS" "errors"),
              Msg.task t.taskId t.value Status.final t.info]) := by
  rw [taskCycle_eq]
  cases h : env.followUps s.numLoops with
  | some vs =>
      by_cases hl : vs.length = 0
      · obtain rfl := List.length_eq_zero.mp hl
        simp [startedMsgs]
      · simp [hl]
  | none => simp

theorem loopIter_flagPause (env : Env) (s : AgentState) (hm : env.mode = Mode.pause)
    (hf : s.playbackControl = Playback.pause) :
    loopIter env s = IterResult.stopped { s with isRunning := false } := by
  simp [loopIter, hm, conditionalPause_flagPause s hf]

theorem loopIter_next_eq (env : Env) (s : AgentState) (t : Task) (rest : List Task)
    (hrun : (conditionalPause env.mode s).isRunning = true)
    (hrem : getRemainingTasks s = t :: rest)
    (hbudget : s.numLoops + 1 ≤ maxLoops env) :
    loopIter env s =
      IterResult.next (taskCycle env
        { conditionalPause env.mode s with numLoops := s.numLoops + 1 } t) := by
  obtain ⟨b, p, hcp⟩ := conditionalPause_shape env.mode s
  rw [hcp] at hrun
  simp only [getRemainingTasks] at hrem
  simp [loopIter, hcp, hrun, getRemainingTasks, hrem, Nat.not_lt_of_le hbudget]

theorem loopIter_trip (env : Env) (s : AgentState) (t : Task) (rest : List Task)
    (hrun : (conditionalPause env.mode s).isRunning = true)
    (hrem : getRemainingTasks s = t :: rest)
    (htrip : maxLoops env < s.numLoops + 1) :
    loopIter env s =
      IterResult.stopped (shutdown (emit
        { conditionalPause env.mode s with numLoops := s.numLoops + 1 } Msg.loopLimit)) := by
  obtain ⟨b, p, hcp⟩ := conditionalPause_shape env.mode s
  rw [hcp] at hrun
  simp only [getRemainingTasks] at hrem
  simp [loopIter, hcp, hrun, getRemainingTasks, hrem, htrip]

theorem loopIter_notRunning (env : Env) (s : AgentState)
    (hr : (conditionalPause env.mode s).isRunning = false) :
    loopIter env s = IterResult.stopped (conditionalPause env.mode s) := by
  simp [loopIter, hr]

theorem loopIter_empty (env : Env) (s : AgentState)
    (hrun : (conditionalPause env.mode s).isRunning = true)
    (hrem : getRemainingTasks s = []) :
    loopIter env s =
      IterResult.stopped (shutdown (emit (conditionalPause env.mode s) Msg.completedAll)) := by
  obtain ⟨b, p, hcp⟩ := conditionalPause_shape env.mode s
  rw [hcp] at hrun
  simp only [getRemainingTasks] at hrem
  simp [loopIter, hcp, hrun, getRemainingTasks, hrem]

theorem loopIter_next_src (env : Env) (s s1 : AgentState)
    (h : loopIter env s = IterResult.next s1) :
    ∃ t rest, getRemainingTasks s = t :: rest ∧
      s1 = taskCycle env { conditionalPause env.mode s with numLoops := s.numLoops + 1 } t := by
  by_cases hr : (conditionalPause env.mode s).isRunning = true
  · cases hrem : getRemainingTasks s with
    | nil => rw [loopIter_empty env s hr hrem] at h; cases h
    | cons t rest =>
        by_cases hb : s.numLoops + 1 ≤ maxLoops env
        · rw [loopIter_next_eq env s t rest hr hrem hb] at h
          cases h
          exact ⟨t, rest, rfl, rfl⟩
        · rw [loopIter_trip env s t rest hr hrem (Nat.lt_of_not_le hb)] at h
          cases h
  · rw [loopIter_notRunning env s (Bool.not_eq_true _ ▸ Bool.eq_false_iff.mpr ?_)] at h
    · cases h
    · intro hc; exact hr hc

/-- C1: in step-paused mode, a `Pause` flag at the iteration boundary sets
`isRunning` to false and returns with loop count, task store, messages and
every other field untouched; a `Play` flag sets `isRunning` to true and is
immediately reset to `Pause`, so any pass that continues to another
iteration hands it a `Pause` flag and that next pass suspends — each resume
grants exactly one task cycle. -/
theorem stepPause_one_cycle (env : Env) (s : AgentState) (hmode : env.mode = Mode.pause) :
    (s.playbackControl = Playback.pause →
       loopIter env s = IterResult.stopped { s with isRunning := false }) ∧
    (s.playbackControl = Playback.play →
       conditionalPause env.mode s =
         { s with isRunning := true, playbackControl := Playback.pause } ∧
       ∀ s1, loopIter env s = IterResult.next s1 →
         s1.playbackControl = Playback.pause ∧
         loopIter env s1 = IterResult.stopped { s1 with isRunning := false }) := by
  constructor
  · intro hf
    exact loopIter_flagPause env s hmode hf
  · intro hf
    constructor
    · rw [hmode]
      exact conditionalPause_flagPlay s hf
    · intro s1 h1
      obtain ⟨t, rest, hrem, hs1⟩ := loopIter_next_src env s s1 h1
      have hpb : s1.playbackControl = Playback.pause := by
        rw [hs1]
        have := (taskCycle_fields env
          { conditionalPause env.mode s with numLoops := s.numLoops + 1 } t).2.2.1
        rw [this]
        rw [hmode, conditionalPause_flagPlay s hf]
      exact ⟨hpb, loopIter_flagPause env s1 hmode hpb⟩

/-- C1 witness: in a concrete step-paused run with the flag at `Pause`, the
iteration suspends with only `isRunning` changed. -/
theorem stepPause_one_cycle_witness :
    loopIter envPause samplePaused = IterResult.stopped { samplePaused with isRunning := false } :=
  (stepPause_one_cycle envPause samplePaused rfl).1 rfl

/-- C2: whenever an iteration passes the pause gate and the nonempty-queue
check, `numLoops` is incremented by exactly 1 (in both the continuing and the
stopping outcome), and the iteration terminates the run with the loop-limit
message and a shutdown call if and only if the incremented count exceeds the
budget — in which case the task store is untouched, the only emitted message
is `loop-limit`, and no task value is completed. -/
theorem loopBudget_spec (env : Env) (s : AgentState)
    (hrun : (conditionalPause env.mode s).isRunning = true)
    (hrem : getRemainingTasks s ≠ []) :
    (∀ s1, loopIter env s = IterResult.next s1 → s1.numLoops = s.numLoops + 1) ∧
    (∀ s1, loopIter env s = IterResult.stopped s1 → s1.numLoops = s.numLoops + 1) ∧
    (maxLoops env < s.numLoops + 1 ↔
       loopIter env s =
         IterResult.stopped (shutdown (emit
           { conditionalPause env.mode s with numLoops := s.numLoops + 1 } Msg.loopLimit))) ∧
    (maxLoops env < s.numLoops + 1 →
       ∀ s1, loopIter env s = IterResult.stopped s1 →
         s1.tasks = s.tasks ∧ s1.messages = s.messages ++ [Msg.loopLimit] ∧
         s1.shutdownCalls = s.shutdownCalls + 1 ∧ s1.completedTasks = s.completedTasks) := by
  obtain ⟨t, rest, hrem'⟩ := List.exists_cons_of_ne_nil hrem
  obtain ⟨b, p, hcp⟩ := conditionalPause_shape env.mode s
  by_cases htrip : maxLoops env < s.numLoops + 1
  · have heq := loopIter_trip env s t rest hrun hrem' htrip
    refine ⟨?_, ?_, ⟨fun _ => heq, fun _ => htrip⟩, ?_⟩
    · intro s1 h1
      rw [heq] at h1
      cases h1
    · intro s1 h1
      rw [heq] at h1
      cases h1
      simp [shutdown, emit]
    · intro _ s1 h1
      rw [heq] at h1
      cases h1
      simp [shutdown, emit, hcp]
  · have hb : s.numLoops + 1 ≤ maxLoops env := Nat.le_of_not_lt htrip
    have heq := loopIter_next_eq env s t rest hrun hrem' hb
    refine ⟨?_, ?_, ⟨fun h => absurd h htrip, ?_⟩, fun h => absurd h htrip⟩
    · intro s1 h1
      rw [heq] at h1
      cases h1
      have := (taskCycle_fields env
        { conditionalPause env.mode s with numLoops := s.numLoops + 1 } t).2.1
      rw [this]
    · intro s1 h1
      rw [heq] at h1
      cases h1
    · intro h1
      rw [heq] at h1
      cases h1

/-- C2 witness: the concrete first iteration of `envNoFollow` from
`sampleState` continues and its loop count is exactly 1. -/
theorem loopBudget_spec_witness :
    (taskCycle envNoFollow
        { conditionalPause envNoFollow.mode sampleState with
            numLoops := sampleState.numLoops + 1 }
        { taskId := 0, value := "a", status := Status.started, info := none }).numLoops =
      sampleState.numLoops + 1 :=
  (loopBudget_spec envNoFollow sampleState (by decide) (by decide)).1 _ rfl

/-- C4 (code bug): the dangling `else` in `getMessageFromError` makes the 429
quota classification dead — an axios failure with status 429 is surfaced as
the generic access error, not the quota error; 404 is surfaced as the
no-GPT-4 error as claimed, and a non-axios failure keeps the generic
retrieval error. -/
theorem quota_misclassified :
    getMessageFromError { isAxiosError := true, status := some 429 } =
      translate "ERROR_ACCESSING_OPENAI_API_KEY" "errors" ∧
    getMessageFromError { isAxiosError := true, status := some 429 } ≠
      translate "ERROR_API_KEY_QUOTA" "errors" ∧
    getMessageFromError { isAxiosError := true, status := some 404 } =
      translate "ERROR_OPENAI_API_KEY_NO_GPT4" "errors" ∧
    getMessageFromError { isAxiosError := false, status := none } =
      translate "ERROR_RETRIEVE_INITIAL_TASKS" "errors" := by
  refine ⟨rfl, by decide, rfl, rfl⟩

/-- C9: `stopAgent` emits the manual-shutdown message, sets `isRunning` to
false and invokes the shutdown callback, and it never mutates the task store
nor emits a task message — in particular a second call on an already stopped
agent leaves the task store unchanged and appends only the (non-task)
manual-shutdown message. -/
theorem stopAgent_spec (s : AgentState) :
    (stopAgent s).messages = s.messages ++ [Msg.manualShutdown] ∧
    (stopAgent s).isRunning = false ∧
    (stopAgent s).shutdownCalls = s.shutdownCalls + 1 ∧
    (stopAgent s).tasks = s.tasks ∧
    (∀ i v st info, Msg.manualShutdown ≠ Msg.task i v st info) := by
  refine ⟨rfl, rfl, rfl, rfl, ?_⟩
  intro i v st info h
  cases h

/-- C10: the constructor's playback initialization — `||` binds tighter than
`?:`, so any truthy supplied `playbackControl` (every supplied constant is a
nonempty string) yields `AGENT_PAUSE` regardless of its value and of the
mode, and `AGENT_PLAY` results exactly when the argument is absent or falsy
and the (defaulted) mode is not `PAUSE_MODE`. -/
theorem ctorPlayback_spec (pb : Option String) (mode : String) :
    (∀ p, pb = some p → jsTruthy p = true → ctorPlaybackControl pb mode = AGENT_PAUSE) ∧
    (ctorPlaybackControl pb mode = AGENT_PLAY ↔
       (pb = none ∨ pb = some "") ∧ ¬ ctorMode mode = PAUSE_MODE) := by
  constructor
  · rintro p rfl hp
    simp [ctorPlaybackControl, hp]
  · cases pb with
    | none =>
        by_cases h : ctorMode mode = PAUSE_MODE <;>
          simp [ctorPlaybackControl, h, AGENT_PAUSE, AGENT_PLAY]
    | some p =>
        by_cases hp : jsTruthy p = true
        · have hp' : ¬ p = "" := by
            simpa [jsTruthy] using hp
          simp [ctorPlaybackControl, hp, hp', AGENT_PAUSE, AGENT_PLAY]
        · have hp' : p = "" := by
            simpa [jsTruthy] using hp
          subst hp'
          by_cases h : ctorMode mode = PAUSE_MODE <;>
            simp [ctorPlaybackControl, jsTruthy, h, AGENT_PAUSE, AGENT_PLAY]

/-- C10 witness: supplying `AGENT_PLAY` in automatic mode still initializes
the flag to `AGENT_PAUSE`. -/
theorem ctorPlayback_spec_witness :
    ctorPlaybackControl (some AGENT_PLAY) AUTOMATIC_MODE = AGENT_PAUSE :=
  (ctorPlayback_spec (some AGENT_PLAY) AUTOMATIC_MODE).1 AGENT_PLAY rfl (by decide)

theorem applyTaskMessage_status (ts : List Task) (t u : Task)
    (hns : ¬ t.status = Status.started) (hu : u ∈ applyTaskMessage ts t)
    (hid : u.taskId = t.taskId) : u.status = t.status := by
  unfold applyTaskMessage at hu
  rw [if_neg hns] at hu
  obtain ⟨v, hv, huv⟩ := List.mem_map.mp hu
  by_cases h : v.taskId = t.taskId
  · rw [if_pos h] at huv
    rw [← huv]
  · rw [if_neg h] at huv
    subst huv
    exact absurd hid h

theorem taskCycle_final_status (env : Env) (s : AgentState) (t : Task)
    (hfail : env.followUps s.numLoops = none) :
    ∀ u ∈ (taskCycle env s t).tasks, u.taskId = t.taskId → u.status = Status.final := by
  intro u hu hid
  rw [taskCycle_eq] at hu
  simp only [hfail] at hu
  exact applyTaskMessage_status _ _ u (by simp) hu hid

/-- Environment whose follow-up generation always fails. -/
def envExpFail : Env :=
  { envNoFollow with followUps := fun _ => none }

/-- C6: a failure of follow-up generation is fully absorbed by the `catch` in
`loop()`: the iteration still returns the continuing outcome (the loop
recurses instead of terminating), exactly one non-fatal error message is
emitted, the current task is marked `final` in the store, the running flag is
still set, and no shutdown is invoked by this path. -/
theorem expansionFailure_absorbed (env : Env) (s : AgentState) (t : Task) (rest : List Task)
    (hrun : (conditionalPause env.mode s).isRunning = true)
    (hrem : getRemainingTasks s = t :: rest)
    (hbudget : s.numLoops + 1 ≤ maxLoops env)
    (hfail : env.followUps (s.numLoops + 1) = none) :
    ∃ s1, loopIter env s = IterResult.next s1 ∧
      Msg.error (translate "ERROR_ADDING_ADDITIONAL_TASKS" "errors") ∈ s1.messages ∧
      Msg.task t.taskId t.value Status.final t.info ∈ s1.messages ∧
      (∀ u ∈ s1.tasks, u.taskId = t.taskId → u.status = Status.final) ∧
      s1.shutdownCalls = s.shutdownCalls ∧
      s1.isRunning = true := by
  have heq := loopIter_next_eq env s t rest hrun hrem hbudget
  obtain ⟨b, p, hcp⟩ := conditionalPause_shape env.mode s
  refine ⟨_, heq, ?_, ?_, ?_, ?_, ?_⟩
  · rw [taskCycle_messages]
    simp [hfail]
  · rw [taskCycle_messages]
    simp [hfail]
  · exact taskCycle_final_status env _ t hfail
  · have := (taskCycle_fields env
      { conditionalPause env.mode s with numLoops := s.numLoops + 1 } t).2.2.2.1
    rw [this, hcp]
  · have := (taskCycle_fields env
      { conditionalPause env.mode s with numLoops := s.numLoops + 1 } t).1
    rw [this, hcp]
    rw [hcp] at hrun
    exact hrun

/-- C6 witness: a concrete iteration whose follow-up generation fails still
continues, with the error message emitted, the task finalized and no
shutdown. -/
theorem expansionFailure_absorbed_witness :
    ∃ s1, loopIter envExpFail sampleState = IterResult.next s1 ∧
      Msg.error (translate "ERROR_ADDING_ADDITIONAL_TASKS" "errors") ∈ s1.messages ∧
      Msg.task 0 "a" Status.final none ∈ s1.messages ∧
      (∀ u ∈ s1.tasks, u.taskId = 0 → u.status = Status.final) ∧
      s1.shutdownCalls = sampleState.shutdownCalls ∧
      s1.isRunning = true :=
  expansionFailure_absorbed envExpFail sampleState
    { taskId := 0, value := "a", status := Status.started, info := none } []
    (by decide) (by decide) (by decide) rfl

/-- C3 counterexample: when goal decomposition fails on a fresh automatic-mode
agent, `run` does emit exactly one error message in the start phase, but it
then falls through into the loop: after `run` returns, `isRunning` is still
true (the claim says false), an additional human-readable `completed` message
has been emitted, and shutdown has been invoked twice. -/
theorem startFailure_counterexample :
    (run 1 failEnvAuto (mkAgent none Mode.automatic)).isRunning = true ∧
    (run 1 failEnvAuto (mkAgent none Mode.automatic)).messages =
      [Msg.goal "g", Msg.thinking,
       Msg.error "ERROR_RETRIEVE_INITIAL_TASKS", Msg.completedAll] ∧
    (run 1 failEnvAuto (mkAgent none Mode.automatic)).shutdownCalls = 2 :=
  ⟨rfl, rfl, rfl⟩

/-- C3 amended: on a decomposition failure the start phase emits exactly one
error message, invokes shutdown once and leaves `loopCount` at 0; but `run`
then continues into the loop, so in automatic mode the empty queue
additionally emits the `completed` message, invokes shutdown a second time,
and `isRunning` remains true after `run` returns; only in step-paused mode
does the pause gate set `isRunning` to false with no further message. -/
theorem startFailure_amended (env : Env) (e : ApiError) (fuel : Nat)
    (hfail : env.initialTasks = Except.error e) (hfuel : fuel ≠ 0) :
    (env.mode = Mode.automatic →
       run fuel env (mkAgent none Mode.automatic) =
         { isRunning := true, numLoops := 0, completedTasks := [],
           playbackControl := Playback.play, tasks := [],
           messages := [Msg.goal env.goal, Msg.thinking,
             Msg.error (getMessageFromError e), Msg.completedAll],
           nextId := 0, shutdownCalls := 2, decomposeCalls := 1, handlePauseCalls := 0 }) ∧
    (env.mode = Mode.pause →
       run fuel env (mkAgent none Mode.pause) =
         { isRunning := false, numLoops := 0, completedTasks := [],
           playbackControl := Playback.pause, tasks := [],
           messages := [Msg.goal env.goal, Msg.thinking,
             Msg.error (getMessageFromError e)],
           nextId := 0, shutdownCalls := 1, decomposeCalls := 1, handlePauseCalls := 1 }) := by
  obtain ⟨f, rfl⟩ : ∃ f, fuel = f + 1 := ⟨fuel - 1, by omega⟩
  constructor
  · intro hm
    simp [run, startGoal, mkAgent, initialPlayback, updateIsRunning, emit, hfail, shutdown,
      loopRun, loopIter, conditionalPause, getRemainingTasks, hm]
  · intro hm
    simp [run, startGoal, mkAgent, initialPlayback, updateIsRunning, emit, hfail, shutdown,
      loopRun, loopIter, conditionalPause, getRemainingTasks, hm]

/-- C3 witness: the amended behavior at a concrete step-paused failing run. -/
theorem startFailure_amended_witness :
    run 1 failEnvPause (mkAgent none Mode.pause) =
      { isRunning := false, numLoops := 0, completedTasks := [],
        playbackControl := Playback.pause, tasks := [],
        messages := [Msg.goal "g", Msg.thinking,
          Msg.error "ERROR_RETRIEVE_INITIAL_TASKS"],
        nextId := 0, shutdownCalls := 1, decomposeCalls := 1, handlePauseCalls := 1 } :=
  (startFailure_amended failEnvPause { isAxiosError := false, status := none } 1 rfl
    (by decide)).2 rfl

/-- C5 counterexample: in a concrete run whose task gets zero follow-ups, the
message stream for that task contains BOTH a `completed` and a `final` task
message — not exactly one of the two as claimed (the `final` message is
emitted in addition, to retroactively re-mark the task). -/
theorem completed_and_final_counterexample :
    Msg.task 0 "a" Status.completed (some "result") ∈
      (run 3 envNoFollow (mkAgent none Mode.automatic)).messages ∧
    Msg.task 0 "a" Status.final none ∈
      (run 3 envNoFollow (mkAgent none Mode.automatic)).messages := by
  decide

/-- C5 amended: in every iteration that runs a task cycle, the messages
emitted for the current task appear in the fixed order
`executing → analysis → completed`, always including `completed`; when zero
follow-ups are returned, or follow-up generation fails, an additional `final`
task message follows the `completed` one (the `final` mark supplements the
`completed` message rather than replacing it). -/
theorem taskMessage_order_amended (env : Env) (s : AgentState) (t : Task) (rest : List Task)
    (hrun : (conditionalPause env.mode s).isRunning = true)
    (hrem : getRemainingTasks s = t :: rest)
    (hbudget : s.numLoops + 1 ≤ maxLoops env) :
    ∃ s1, loopIter env s = IterResult.next s1 ∧
      s1.messages = s.messages ++
        [Msg.task t.taskId t.value Status.executing t.info, Msg.thinking,
         Msg.analysis (env.analyze t.value),
         Msg.task t.taskId t.value Status.completed
           (some (env.execute t.value (env.analyze t.value))), Msg.thinking] ++
        (match env.followUps (s.numLoops + 1) with
         | some vs =>
             startedMsgs s.nextId vs ++
               (if vs.length = 0 then [Msg.task t.taskId t.value Status.final t.info] else [])
         | none =>
             [Msg.error (translate "ERROR_ADDING_ADDITIONAL_TASKS" "errors"),
              Msg.task t.taskId t.value Status.final t.info]) := by
  have heq := loopIter_next_eq env s t rest hrun hrem hbudget
  refine ⟨_, heq, ?_⟩
  rw [taskCycle_messages]
  obtain ⟨b, p, hcp⟩ := conditionalPause_shape env.mode s
  rw [hcp]

/-- C5 witness: the amended message trace at a concrete zero-follow-up
iteration — `executing`, `analysis`, `completed`, then the extra `final`. -/
theorem taskMessage_order_amended_witness :
    ∃ s1, loopIter envNoFollow sampleState = IterResult.next s1 ∧
      s1.messages =
        [Msg.task 0 "a" Status.executing none, Msg.thinking, Msg.analysis "analysis",
         Msg.task 0 "a" Status.completed (some "result"), Msg.thinking,
         Msg.task 0 "a" Status.final none] :=
  taskMessage_order_amended envNoFollow sampleState
    { taskId := 0, value := "a", status := Status.started, info := none } []
    (by decide) (by decide) (by decide)

theorem loopIter_decomposeCalls (env : Env) (s : AgentState) :
    (∀ s1, loopIter env s = IterResult.stopped s1 → s1.decomposeCalls = s.decomposeCalls) ∧
    (∀ s1, loopIter env s = IterResult.next s1 → s1.decomposeCalls = s.decomposeCalls) := by
  obtain ⟨b, p, hcp⟩ := conditionalPause_shape env.mode s
  by_cases hr : (conditionalPause env.mode s).isRunning = true
  · cases hrem : getRemainingTasks s with
    | nil =>
        rw [loopIter_empty env s hr hrem]
        constructor
        · intro s1 h1
          cases h1
          simp [shutdown, emit, hcp]
        · intro s1 h1
          cases h1
    | cons t rest =>
        by_cases hb : s.numLoops + 1 ≤ maxLoops env
        · rw [loopIter_next_eq env s t rest hr hrem hb]
          constructor
          · intro s1 h1
            cases h1
          · intro s1 h1
            cases h1
            have := (taskCycle_fields env
              { conditionalPause env.mode s with numLoops := s.numLoops + 1 } t).2.2.2.2.1
            rw [this, hcp]
        · rw [loopIter_trip env s t rest hr hrem (Nat.lt_of_not_le hb)]
          constructor
          · intro s1 h1
            cases h1
            simp [shutdown, emit, hcp]
          · intro s1 h1
            cases h1
  · have hr' : (conditionalPause env.mode s).isRunning = false := by
      cases hx : (conditionalPause env.mode s).isRunning
      · rfl
      · exact absurd hx hr
    rw [loopIter_notRunning env s hr']
    constructor
    · intro s1 h1
      cases h1
      rw [hcp]
    · intro s1 h1
      cases h1

theorem loopRun_decomposeCalls (fuel : Nat) (env : Env) (s : AgentState) :
    (loopRun fuel env s).decomposeCalls = s.decomposeCalls := by
  induction fuel generalizing s with
  | zero => rfl
  | succ f ih =>
      rw [loopRun]
      cases h : loopIter env s with
      | stopped s1 => exact (loopIter_decomposeCalls env s).1 s1 h
      | next s1 => rw [ih s1, (loopIter_decomposeCalls env s).2 s1 h]

theorem startGoal_decomposeCalls (env : Env) (s : AgentState) :
    (startGoal env s).decomposeCalls = s.decomposeCalls + 1 := by
  unfold startGoal
  cases h : env.initialTasks with
  | ok vs => simp [h, enqueueValues_eq, emit]
  | error e => simp [h, shutdown, emit]

/-- C7 counterexample: on a step-paused agent, the first `run` performs a
successful start (decomposition called once, one task enqueued) and then
suspends with `isRunning = false`; calling `run` again directly — as after a
step-pause suspension — invokes goal decomposition a second time and
enqueues a duplicate of the initial task. -/
theorem run_restart_counterexample :
    (run 1 envPause (run 1 envPause (mkAgent none Mode.pause))).decomposeCalls = 2 ∧
    (run 1 envPause (run 1 envPause (mkAgent none Mode.pause))).tasks =
      [{ taskId := 0, value := "a", status := Status.started, info := none },
       { taskId := 1, value := "a", status := Status.started, info := none }] := by
  decide

theorem run_decomposeCalls (fuel : Nat) (env : Env) (s : AgentState) :
    (run fuel env s).decomposeCalls =
      (if s.isRunning = false then startGoal env (updateIsRunning s true)
       else s).decomposeCalls := by
  by_cases hc : s.isRunning = false
  · rw [if_pos hc]
    simp only [run]
    rw [if_pos hc]
    split
    · exact loopRun_decomposeCalls fuel env _
    · exact loopRun_decomposeCalls fuel env _
  · rw [if_neg hc]
    simp only [run]
    rw [if_neg hc]
    split
    · exact loopRun_decomposeCalls fuel env _
    · exact loopRun_decomposeCalls fuel env _

/-- C7 amended: `run` performs the start phase (goal decomposition and
initial-task enqueueing) exactly when `isRunning` is false at call time, and
otherwise only resumes the loop without decomposing; since a step-pause
suspension leaves `isRunning` false, resuming without re-decomposition
requires the caller to set `isRunning` to true (via `updateIsRunning`, as the
UI resume handler does) before calling `run` again. -/
theorem run_start_guard_amended (fuel : Nat) (env : Env) (s : AgentState) :
    (s.isRunning = true → (run fuel env s).decomposeCalls = s.decomposeCalls) ∧
    (s.isRunning = false → (run fuel env s).decomposeCalls = s.decomposeCalls + 1) := by
  constructor
  · intro hr
    rw [run_decomposeCalls, if_neg (by simp [hr])]
  · intro hr
    rw [run_decomposeCalls, if_pos hr, startGoal_decomposeCalls]
    rfl

/-- C7 witness: a fresh step-paused agent (not running) has decomposition
invoked exactly once by `run`. -/
theorem run_start_guard_amended_witness :
    (run 1 envPause (mkAgent none Mode.pause)).decomposeCalls =
      (mkAgent none Mode.pause).decomposeCalls + 1 :=
  (run_start_guard_amended 1 envPause (mkAgent none Mode.pause)).2 rfl

theorem taskCycle_remaining_ne (env : Env) (s : AgentState) (t : Task) (v : String)
    (vs : List String) (h : env.followUps s.numLoops = some (v :: vs)) :
    getRemainingTasks (taskCycle env s t) ≠ [] := by
  rw [taskCycle_eq]
  simp only [h]
  simp [getRemainingTasks, startedTasksFrom, List.filter_append]

theorem loopDepth_budget (env : Env) (hmode : env.mode = Mode.automatic)
    (hfu : ∀ n, ∃ v vs, env.followUps n = some (v :: vs)) :
    ∀ (k fuel : Nat) (s : AgentState), s.isRunning = true → getRemainingTasks s ≠ [] →
      maxLoops env = s.numLoops + k → k + 1 ≤ fuel → loopDepth fuel env s = k + 1 := by
  intro k
  induction k with
  | zero =>
      intro fuel s hrun hrem hmax hfuel
      obtain ⟨f, rfl⟩ : ∃ f, fuel = f + 1 := ⟨fuel - 1, by omega⟩
      obtain ⟨t, rest, hrem'⟩ := List.exists_cons_of_ne_nil hrem
      have hcp : conditionalPause env.mode s = s := by
        rw [hmode]
        exact conditionalPause_auto s
      have hrun' : (conditionalPause env.mode s).isRunning = true := by
        rw [hcp]
        exact hrun
      have htrip : maxLoops env < s.numLoops + 1 := by omega
      simp only [loopDepth]
      rw [loopIter_trip env s t rest hrun' hrem' htrip]
  | succ k ih =>
      intro fuel s hrun hrem hmax hfuel
      obtain ⟨f, rfl⟩ : ∃ f, fuel = f + 1 := ⟨fuel - 1, by omega⟩
      obtain ⟨t, rest, hrem'⟩ := List.exists_cons_of_ne_nil hrem
      have hcp : conditionalPause env.mode s = s := by
        rw [hmode]
        exact conditionalPause_auto s
      have hrun' : (conditionalPause env.mode s).isRunning = true := by
        rw [hcp]
        exact hrun
      have hb : s.numLoops + 1 ≤ maxLoops env := by omega
      simp only [loopDepth]
      rw [loopIter_next_eq env s t rest hrun' hrem' hb]
      have hfields := taskCycle_fields env
        { conditionalPause env.mode s with numLoops := s.numLoops + 1 } t
      have h1 : (taskCycle env
          { conditionalPause env.mode s with numLoops := s.numLoops + 1 } t).isRunning = true := by
        rw [hfields.1, hcp]
        exact hrun
      have h2 : getRemainingTasks (taskCycle env
          { conditionalPause env.mode s with numLoops := s.numLoops + 1 } t) ≠ [] := by
        obtain ⟨v, vs, hv⟩ := hfu (s.numLoops + 1)
        exact taskCycle_remaining_ne env _ t v vs hv
      have h3 : maxLoops env = (taskCycle env
          { conditionalPause env.mode s with numLoops := s.numLoops + 1 } t).numLoops + k := by
        rw [hfields.2.1, hcp]
        show maxLoops env = s.numLoops + 1 + k
        omega
      show 1 + loopDepth f env (taskCycle env
        { conditionalPause env.mode s with numLoops := s.numLoops + 1 } t) = k + 1 + 1
      rw [ih f _ h1 h2 h3 (by omega)]
      omega

/-- C8 counterexample: the nested `loop()` call depth is not bounded by any
constant — for every candidate bound `c` there is a run (loop budget `c + 1`,
follow-ups always nonempty) whose depth exceeds it, because each iteration
adds one recursive frame. -/
theorem loop_depth_unbounded :
    ¬ ∃ c : Nat, ∀ n : Nat, loopDepth (n + 2) (envBusy (n + 1)) sampleState ≤ c := by
  rintro ⟨c, hc⟩
  have he : loopDepth (c + 2) (envBusy (c + 1)) sampleState = (c + 1) + 1 := by
    refine loopDepth_budget (envBusy (c + 1)) rfl (fun n => ⟨"b", [], rfl⟩) (c + 1) (c + 2)
      sampleState rfl (by decide) ?_ (by omega)
    simp [maxLoops, envBusy, sampleState]
  have h := hc c
  rw [he] at h
  omega

/-- C8 amended: the iterative phase is self-recursive (`loop()` awaits itself
at the end of each iteration), so the nested call depth consumed by the loop
is proportional to the number of iterations executed: in an automatic-mode
run whose follow-up oracle always yields a nonempty list, the depth is
exactly the remaining loop budget plus one. -/
theorem loop_recursion_depth_amended (env : Env) (k fuel : Nat) (s : AgentState)
    (hmode : env.mode = Mode.automatic)
    (hfu : ∀ n, ∃ v vs, env.followUps n = some (v :: vs))
    (hrun : s.isRunning = true) (hrem : getRemainingTasks s ≠ [])
    (hmax : maxLoops env = s.numLoops + k) (hfuel : k + 1 ≤ fuel) :
    loopDepth fuel env s = k + 1 :=
  loopDepth_budget env hmode hfu k fuel s hrun hrem hmax hfuel

/-- C8 witness: a concrete budget-2 run has nested depth 3. -/
theorem loop_recursion_depth_amended_witness :
    loopDepth 3 (envBusy 2) sampleState = 2 + 1 :=
  loop_recursion_depth_amended (envBusy 2) 2 3 sampleState rfl (fun n => ⟨"b", [], rfl⟩)
    rfl (by decide) (by decide) (by decide)

/-- C9 witness: a second `stopAgent` call on an already stopped agent leaves
the task store unchanged. -/
theorem stopAgent_spec_witness :
    (stopAgent (stopAgent sampleState)).tasks = (stopAgent sampleState).tasks :=
  (stopAgent_spec (stopAgent sampleState)).2.2.2.1

end AgentGPT
